import Mathlib

/-!
Shallow embedding, in Lean 4, of the core of the pyrev linter
(pyrev/parser.py and pyrev/project.py), together with theorems settling
the specification claims about it.

Conventions used throughout:
* Python logging severity constants are natural numbers with their CPython
  values (DEBUG = 10, INFO = 20, WARNING = 30, ERROR = 40, CRITICAL = 50).
* Diagnostics emitted through the reporter convenience wrappers
  (`_error`, `_warning`, `_info`) are modelled as `Diag` values carrying
  the severity level passed to `ProblemReporter.report`.
* A Python function that can raise is modelled with an `Option` / sum-like
  result; `none` in such a position marks the raising path.
* Internal `assert` statements of the source are modelled where their
  failing path is reachable and decides behaviour a theorem speaks about
  (the `assert not self.unprocessed` of `InlineStateMachine.end()`);
  the remaining asserts guard paths none of the theorems below traverse
  and are noted in comments where they are dropped.
-/

namespace Pyrev

/-- Python logging severity `DEBUG` (10). -/
def debugLevel : Nat := 10

/-- Python logging severity `INFO` (20). -/
def infoLevel : Nat := 20

/-- Python logging severity `WARNING` (30). -/
def warningLevel : Nat := 30

/-- Python logging severity `ERROR` (40). -/
def errorLevel : Nat := 40

/-- Python logging severity `CRITICAL` (50). -/
def criticalLevel : Nat := 50

/-!
## Problem reporter (parser.py, `ParseProblem` hierarchy and `ProblemReporter`)
-/

/-- The four `ParseProblem` subclasses of parser.py, each with its `LEVEL`. -/
inductive ProblemClass
  | parseError    -- LEVEL = ERROR  (40)
  | parseWarning  -- LEVEL = WARNING (30)
  | parseInfo     -- LEVEL = INFO (20)
  | parseDebug    -- LEVEL = DEBUG (10)
  deriving DecidableEq, Repr

/-- A `ParseProblem` instance: the class it was constructed from plus the
constructor arguments `source_name`, `line_num`, `desc`, `raw_content`. -/
structure Problem where
  cls : ProblemClass
  sourceName : String
  lineNum : Option Nat
  desc : String
  rawContent : Option String
  deriving DecidableEq, Repr

/-- `ProblemReporter` state: the retained problem list and both thresholds. -/
structure ProblemReporter where
  problems : List Problem
  ignoreThreshold : Nat
  abortThreshold : Nat
  deriving DecidableEq, Repr

/-- The class-selection chain of `ProblemReporter.report`
(`if error_level >= ParseError.LEVEL: ... elif ... else ParseDebug`). -/
def classifyProblem (errorLevel' : Nat) : ProblemClass :=
  if errorLevel' ≥ errorLevel then ProblemClass.parseError
  else if errorLevel' ≥ warningLevel then ProblemClass.parseWarning
  else if errorLevel' ≥ infoLevel then ProblemClass.parseInfo
  else ProblemClass.parseDebug

/-- Result of one `ProblemReporter.report` call: the problem was ignored
(`return None`), raised (`raise problem`), or stored and returned. -/
inductive ReportResult
  | ignored
  | raised (p : Problem)
  | stored (p : Problem)
  deriving DecidableEq, Repr

/-- `ProblemReporter.report(error_level, source_name, line_num, desc,
raw_content)`: returns the call result together with the updated reporter
state. -/
def ProblemReporter.report (r : ProblemReporter) (errorLevel' : Nat)
    (sourceName : String) (lineNum : Option Nat) (desc : String)
    (rawContent : Option String) : ReportResult × ProblemReporter :=
  if errorLevel' < r.ignoreThreshold then
    (ReportResult.ignored, r)
  else
    let problem : Problem :=
      { cls := classifyProblem errorLevel', sourceName := sourceName,
        lineNum := lineNum, desc := desc, rawContent := rawContent }
    if errorLevel' ≥ r.abortThreshold then
      (ReportResult.raised problem, r)
    else
      (ReportResult.stored problem,
       { r with problems := r.problems ++ [problem] })

/-!
## String helpers

`String` in this Lean version is a structure over `List Char`; the
helpers below work on the character list directly so that every
definition in this file evaluates inside the kernel.
-/

/-- `a` is a prefix of `b` (on characters). -/
def strIsPrefixOf (a b : String) : Bool := a.data.isPrefixOf b.data

/-- Python `haystack.startswith(needle)` / regex `^needle`. -/
def strStarts (s needle : String) : Bool := needle.data.isPrefixOf s.data

/-- Drop the first `n` characters. -/
def strDrop (s : String) (n : Nat) : String := String.mk (s.data.drop n)

/-- Character count. -/
def strLen (s : String) : Nat := s.data.length

/-- Lexicographic character-list comparison, as Python `<` on strings. -/
def chListLt : List Char → List Char → Bool
  | [], [] => false
  | [], _ :: _ => true
  | _ :: _, [] => false
  | a :: as, b :: bs =>
    if a < b then true else if b < a then false else chListLt as bs

/-!
## Inline state machine (parser.py, `InlineStateMachine`)

The state machine is driven with one character at a time (`parse_ch`)
and closed with `end()`.  Its calls to `self.reporter.error / info` and to
`self.parser._inline_postparse_check` are modelled as `Diag` values
(severity level plus description) accumulated in the machine state; with
the reporter the `Parser` constructs (thresholds INFO / CRITICAL) every
such call stores exactly one problem of that severity.
-/

/-- A diagnostic emitted through one of the reporter convenience wrappers:
the severity level handed to `ProblemReporter.report` and the description. -/
structure Diag where
  level : Nat
  desc : String
  deriving DecidableEq, Repr

/-- One recognised `@<name>{raw}` annotation (`Inline` of parser.py). -/
structure Inline where
  name : String
  rawContent : String
  lineNum : Nat
  position : Nat
  deriving DecidableEq, Repr

/-- The states of `InlineStateMachine` (the `ISM_*` string constants). -/
inductive IsmState
  | ismNone             -- ISM_NONE
  | ismAt               -- ISM_AT
  | ismInlineTag        -- ISM_INLINE_TAG
  | ismEndInlineTag     -- ISM_END_INLINE_TAG
  | ismInlineContent    -- ISM_INLINE_CONTENT
  | ismInlineContentBS  -- ISM_INLINE_CONTENT_BS
  | ismInlineContentAT  -- ISM_INLINE_CONTENT_AT
  deriving DecidableEq, Repr

/-- `InlineStateMachine` mutable state (`state`, `unprocessed`, `name`)
plus the diagnostics it has emitted through the shared reporter. -/
structure Ism where
  lineNum : Nat
  state : IsmState
  unprocessed : List Char
  name : Option String
  diags : List Diag
  deriving DecidableEq, Repr

/-- A fresh machine, as left by `__init__` / `reset()`. -/
def Ism.init (lineNum : Nat) : Ism :=
  { lineNum := lineNum, state := IsmState.ismNone, unprocessed := [],
    name := none, diags := [] }

/-- `reset()`: clears `unprocessed`, `name` and the state (diagnostics and
line number belong to the surrounding context and stay). -/
def Ism.reset (m : Ism) : Ism :=
  { m with unprocessed := [], name := none, state := IsmState.ismNone }

/-- The result of `parse_ch`: `None` (still parsing), a finished `Inline`,
or a passthrough string the caller must handle. -/
inductive IsmRet
  | cont
  | inl (i : Inline)
  | passthrough (s : List Char)
  deriving DecidableEq, Repr

/-- The inline names registered in `Parser.allowed_inlines`. -/
def allowedInlineNames : List String :=
  ["list", "img", "table", "href", "fn", "title", "ami", "chapref",
   "b", "i", "u", "m", "em", "kw", "tt", "tti", "ttb", "bou", "br",
   "code", "chap", "uchar", "raw"]

/-- `Parser._inline_postparse_check`: an unregistered inline name is an
Error; registered names have no post-parse checker (`allowed_inlines`
stores `None` in the first slot for every name). -/
def inlinePostparseCheck (i : Inline) : List Diag :=
  if allowedInlineNames.contains i.name then []
  else [{ level := errorLevel, desc := "Undefined inline" }]

/-- The character class `_inline_escape_allowed` (`}` and `\`). -/
def inlineEscapeAllowed : List Char := ['}', '\\']

/-- `string.ascii_letters + string.digits` membership. -/
def isAsciiAlnum (c : Char) : Bool :=
  (('a' ≤ c && c ≤ 'z') || ('A' ≤ c && c ≤ 'Z') || ('0' ≤ c && c ≤ '9'))

/-- `string.ascii_uppercase` membership. -/
def isAsciiUpper (c : Char) : Bool := 'A' ≤ c && c ≤ 'Z'

/-- Name validation performed by `parse_ch` when `>` closes `@<...`:
empty name → Error, non-alphanumeric character → Error, uppercase
character → Info. -/
def inlineNameDiags (name : List Char) : List Diag :=
  (if name.isEmpty then
     [{ level := errorLevel, desc := "Empty inline name" }] else [])
  ++ (if name.all isAsciiAlnum then [] else
       [{ level := errorLevel, desc := "Inline name has non-alnum" }])
  ++ (if name.any isAsciiUpper then
       [{ level := infoLevel, desc := "Inline name has uppercase" }] else [])

/-- `InlineStateMachine.parse_ch(ch, pos)`.

Each branch is a direct transcription of the corresponding branch of the
source.  Note the `ISM_INLINE_CONTENT_AT` / other-character branch: the
source line `self.state == ISM_INLINE_CONTENT` is a comparison expression
with no effect, so the state is left unchanged there. -/
def Ism.parseCh (m : Ism) (ch : Char) (pos : Nat) : IsmRet × Ism :=
  match m.state with
  | IsmState.ismNone =>
    if ch = '@' then
      (IsmRet.cont, { m with state := IsmState.ismAt })
    else if m.unprocessed ≠ [] then
      (IsmRet.passthrough (m.unprocessed ++ [ch]), m.reset)
    else
      (IsmRet.passthrough [ch], m)
  | IsmState.ismAt =>
    if ch = '<' then
      -- The source asserts `len(self.unprocessed) == 0` here; the failing
      -- path (reachable after an END_TAG recovery followed by `@<`) is
      -- not modelled.
      (IsmRet.cont, { m with state := IsmState.ismInlineTag })
    else if ch = '@' then
      -- Keep the state, dropping the previous '@' character.
      (IsmRet.passthrough ['@'], m)
    else
      (IsmRet.passthrough ['@', ch], m.reset)
  | IsmState.ismInlineTag =>
    if ch = '>' then
      let name := m.unprocessed
      (IsmRet.cont,
       { m with diags := m.diags ++ inlineNameDiags name,
                name := some (String.mk name),
                unprocessed := [],
                state := IsmState.ismEndInlineTag })
    else
      (IsmRet.cont, { m with unprocessed := m.unprocessed ++ [ch] })
  | IsmState.ismEndInlineTag =>
    if ch = '{' then
      (IsmRet.cont, { m with state := IsmState.ismInlineContent })
    else
      -- Error, then interpret "@<tagname>" as "@<tagname>{}" and consume.
      let newInline : Inline :=
        { name := m.name.getD "", rawContent := "",
          lineNum := m.lineNum, position := pos }
      let diags := m.diags
        ++ [{ level := errorLevel, desc := "Wrong charactor" }]
        ++ inlinePostparseCheck newInline
      let m' := { m.reset with diags := diags }
      if ch = '@' then
        (IsmRet.inl newInline, { m' with state := IsmState.ismAt })
      else
        (IsmRet.inl newInline,
         { m' with unprocessed := [ch], state := IsmState.ismNone })
  | IsmState.ismInlineContent =>
    if ch = '}' then
      let newInline : Inline :=
        { name := m.name.getD "", rawContent := String.mk m.unprocessed,
          lineNum := m.lineNum, position := pos }
      (IsmRet.inl newInline,
       { m.reset with diags := m.diags ++ inlinePostparseCheck newInline })
    else if ch = '@' then
      (IsmRet.cont, { m with state := IsmState.ismInlineContentAT })
    else if ch = '\\' then
      (IsmRet.cont, { m with state := IsmState.ismInlineContentBS })
    else
      (IsmRet.cont, { m with unprocessed := m.unprocessed ++ [ch] })
  | IsmState.ismInlineContentAT =>
    if ch = '}' then
      let newInline : Inline :=
        { name := m.name.getD "",
          rawContent := String.mk (m.unprocessed ++ ['@']),
          lineNum := m.lineNum, position := pos }
      (IsmRet.inl newInline,
       { m.reset with diags := m.diags ++ inlinePostparseCheck newInline })
    else if ch = '<' then
      (IsmRet.cont,
       { m with diags := m.diags
                  ++ [{ level := infoLevel,
                        desc := "Possible nested inline tag" }],
                unprocessed := m.unprocessed ++ ['@', ch],
                state := IsmState.ismInlineContent })
    else if ch = '@' then
      (IsmRet.cont, { m with unprocessed := m.unprocessed ++ ['@'] })
    else
      -- Source: `self.state == ISM_INLINE_CONTENT` — a no-op comparison,
      -- so the state stays ISM_INLINE_CONTENT_AT.
      (IsmRet.cont, { m with unprocessed := m.unprocessed ++ ['@', ch] })
  | IsmState.ismInlineContentBS =>
    if inlineEscapeAllowed.contains ch then
      (IsmRet.cont,
       { m with unprocessed := m.unprocessed ++ [ch],
                state := IsmState.ismInlineContent })
    else
      (IsmRet.cont,
       { m with diags := m.diags
                  ++ [{ level := infoLevel,
                        desc := "Backslash inside inline not effective" }],
                unprocessed := m.unprocessed ++ ['\\', ch],
                state := IsmState.ismInlineContent })

/-- The possible outcomes of `InlineStateMachine.end()`: return `None`,
return a passthrough string, raise `AssertionError` (the `ISM_NONE`
branch asserts `not self.unprocessed`), or raise `NotImplementedError`. -/
inductive IsmEndRet
  | noRet
  | passthrough (s : String)
  | assertionError
  | notImplementedError
  deriving DecidableEq, Repr

/-- `InlineStateMachine.end()`: the returned value together with the
diagnostics the call emits.  The `ISM_NONE` branch runs
`assert not self.unprocessed` before returning `None`; a machine in
`ISM_NONE` with leftover `unprocessed` is reachable (the `ISM_END_INLINE_TAG`
recovery pushes the offending character there), so the failing assertion
is modelled as an outcome.  The states listed in the source's membership
test report an `Invalid state` Error (and fall through returning `None`);
`ISM_INLINE_CONTENT_BS` is in no branch, so the trailing
`raise NotImplementedError()` runs. -/
def Ism.endOfLine (m : Ism) : IsmEndRet × List Diag :=
  match m.state with
  | IsmState.ismNone =>
    if m.unprocessed = [] then (IsmEndRet.noRet, [])
    else (IsmEndRet.assertionError, [])
  | IsmState.ismAt => (IsmEndRet.passthrough "@", [])
  | IsmState.ismInlineTag =>
    (IsmEndRet.noRet, [{ level := errorLevel, desc := "Invalid state" }])
  | IsmState.ismEndInlineTag =>
    (IsmEndRet.noRet, [{ level := errorLevel, desc := "Invalid state" }])
  | IsmState.ismInlineContent =>
    (IsmEndRet.noRet, [{ level := errorLevel, desc := "Invalid state" }])
  | IsmState.ismInlineContentAT =>
    (IsmEndRet.noRet, [{ level := errorLevel, desc := "Invalid state" }])
  | IsmState.ismInlineContentBS => (IsmEndRet.notImplementedError, [])

/-- Feed a whole string to a machine, character by character with 0-based
positions, collecting the results (the way `Parser._parse_line` scans a
non-block line). -/
def Ism.run (m : Ism) (s : List Char) (pos : Nat) :
    Ism × List IsmRet :=
  match s with
  | [] => (m, [])
  | c :: rest =>
    let (ret, m') := m.parseCh c pos
    let (m'', rets) := m'.run rest (pos + 1)
    (m'', ret :: rets)

/-!
## Block state machine (parser.py, `BlockStateMachine`) and the parser's
block checkers

`Parser.__init__` registers per-block checkers in `allowed_blocks` as
`(firstline_check, lastline_check, endfile_check)` triples; the lastline
checkers are the `__check_block_default` closures `cbd_0 / cbd_1 / cbd_2`.
The embedding below fixes `parser.project = None` (so `__image_file_exist`
returns without doing anything) and models the checker calls as
diagnostics.
-/

/-- Python `str.rstrip` whitespace (space, tab, LF, CR, FF, VT). -/
def isPySpace (c : Char) : Bool :=
  c = ' ' || c = '\t' || c = '\n' || c = '\r' || c = '\x0c' || c = '\x0b'

/-- Python `str.rstrip()`. -/
def rstrip (s : String) : String :=
  String.mk ((s.data.reverse.dropWhile isPySpace).reverse)

/-- Python `str.strip()`. -/
def pyStrip (s : String) : String :=
  String.mk (((s.data.dropWhile isPySpace).reverse.dropWhile isPySpace).reverse)

/-- One recognised block (`Block` of parser.py). -/
structure Block where
  name : String
  params : List String
  hasContent : Bool
  uniLines : List String
  lineNum : Nat
  deriving DecidableEq, Repr

/-- The parameter-count schema of `Parser.allowed_blocks`: the names it
registers, each with the count its `__check_block_default` closure
(`cbd_0 / cbd_1 / cbd_2`) demands; `none` for unregistered names. -/
def knownBlockParamCount : String → Option Nat
  | "table" => some 2
  | "list" => some 2
  | "emlist" => some 1
  | "listnum" => some 2
  | "image" => some 2
  | "lead" => some 0
  | "footnote" => some 2
  | "noindent" => some 0
  | _ => none

/-- `Parser._block_firstline_check` with `project = None`: an unregistered
block name is an Error; `image`'s `__image_file_exist` checker returns
immediately when no project is attached, and every other registered name
has `None` as its first-line checker. -/
def blockFirstlineCheck (b : Block) : List Diag :=
  match knownBlockParamCount b.name with
  | some _ => []
  | none => [{ level := errorLevel, desc := "Undefined block" }]

/-- `Parser._block_lastline_check`: runs the registered
`__check_block_default` closure, which reports an **Error** when the
parameter count differs from the schema; unregistered names have no
last-line checker. -/
def blockLastlineCheck (b : Block) : List Diag :=
  match knownBlockParamCount b.name with
  | some k =>
    if b.params.length ≠ k then
      [{ level := errorLevel, desc := "Illegal number of params" }]
    else []
  | none => []

/-- The states of `BlockStateMachine` (the `BSM_*` string constants). -/
inductive BsmState
  | bsmNone       -- BSM_NONE
  | bsmParseName  -- BSM_PARSE_NAME
  | bsmInParam    -- BSM_IN_PARAM
  | bsmInParamBS  -- BSM_IN_PARAM_BS
  | bsmEndParam   -- BSM_END_PARAM
  | bsmInBlock    -- BSM_IN_BLOCK
  deriving DecidableEq, Repr

/-- Name validation in `__bsm_name_end`: empty → Error, non-alphanumeric →
Error, uppercase → Info. -/
def blockNameDiags (name : List Char) : List Diag :=
  (if name.isEmpty then
     [{ level := errorLevel, desc := "Empty block name" }] else [])
  ++ (if name.all isAsciiAlnum then [] else
       [{ level := errorLevel, desc := "Block name contains non-alnum" }])
  ++ (if name.any isAsciiUpper then
       [{ level := infoLevel, desc := "Block name contains uppercase" }]
      else [])

/-- The mutable state of `_parse_block_start` while it scans the opening
line: the `BSM_*` sub-state, `self.name`, `self.params`, `self._tmp_lst`,
the embedded `self._ism`, `self._unfinished_block`, and the diagnostics
and inline annotations handed to the parser. -/
structure BsSt where
  state : BsmState
  name : Option String
  params : List String
  tmp : List Char
  ism : Ism
  unfinished : Option Block
  diags : List Diag
  inlines : List Inline
  deriving DecidableEq, Repr

/-- The recurring `ret = self._ism.parse_ch(ch, pos)` dispatch inside
`_parse_block_start`: `None` → nothing, `Inline` → remembered,
string → appended to `self._tmp_lst`.  The embedded machine's freshly
emitted diagnostics are drained into the block-level stream to keep a
single ordered reporter stream. -/
def BsSt.feedIsm (st : BsSt) (ch : Char) (pos : Nat) : BsSt :=
  let (ret, ism') := st.ism.parseCh ch pos
  let st' := { st with ism := { ism' with diags := [] },
                       diags := st.diags ++ ism'.diags }
  match ret with
  | IsmRet.cont => st'
  | IsmRet.inl i => { st' with inlines := st'.inlines ++ [i] }
  | IsmRet.passthrough s => { st' with tmp := st'.tmp ++ s }

/-- `__bsm_name_end()`: turn `self._tmp_lst` into `self.name`, emitting
the validation diagnostics. -/
def BsSt.nameEnd (st : BsSt) : BsSt :=
  { st with name := some (String.mk st.tmp), tmp := [],
            diags := st.diags ++ blockNameDiags st.tmp }

/-- One iteration of the `for pos, ch in enumerate(content, pos_start)`
loop of `_parse_block_start`. -/
def blockStartStep (lineNum : Nat) (ch : Char) (pos : Nat) (st : BsSt) :
    BsSt :=
  match st.state with
  | BsmState.bsmParseName =>
    if ch = '[' then
      { st.nameEnd with state := BsmState.bsmInParam }
    else if ch = ']' then
      { st with diags := st.diags
                  ++ [{ level := errorLevel, desc := "Invalid param end" }],
                state := BsmState.bsmEndParam }
    else if ch = '{' then
      let st' := st.nameEnd
      let blk : Block := { name := st'.name.getD "", params := [],
                           hasContent := true, uniLines := [],
                           lineNum := lineNum }
      { st' with state := BsmState.bsmInBlock, unfinished := some blk,
                 diags := st'.diags ++ blockFirstlineCheck blk }
    else
      { st with tmp := st.tmp ++ [ch] }
  | BsmState.bsmInParam =>
    if ch = ']' then
      if st.ism.state ≠ IsmState.ismNone then
        let st' : BsSt := { st with diags := st.diags
          ++ [{ level := errorLevel,
                desc := "Inline is not finished while ] is found" }] }
        st'.feedIsm ']' pos
      else
        let newParam := String.mk (st.tmp ++ st.ism.unprocessed)
        { st with params := st.params ++ [newParam],
                  ism := st.ism.reset, tmp := [],
                  state := BsmState.bsmEndParam }
    else if ch = '\\' then
      { st with state := BsmState.bsmInParamBS }
    else
      st.feedIsm ch pos
  | BsmState.bsmInParamBS =>
    if ch = ']' then
      -- Eat a backslash.
      { st.feedIsm ']' pos with state := BsmState.bsmInParam }
    else
      { (st.feedIsm '\\' pos).feedIsm ch pos with
          state := BsmState.bsmInParam }
  | BsmState.bsmEndParam =>
    if ch = '[' then
      { st with ism := st.ism.reset, state := BsmState.bsmInParam }
    else if ch = '{' then
      let blk : Block := { name := st.name.getD "", params := st.params,
                           hasContent := true, uniLines := [],
                           lineNum := lineNum }
      { st with state := BsmState.bsmInBlock, unfinished := some blk,
                diags := st.diags ++ blockFirstlineCheck blk }
    else
      { st with diags := st.diags
                  ++ [{ level := errorLevel, desc := "Junk" }] }
  | BsmState.bsmInBlock =>
    { st with diags := st.diags
                ++ [{ level := errorLevel, desc := "Junk" }] }
  | BsmState.bsmNone => st  -- unreachable: the loop starts in BSM_PARSE_NAME

/-- The character loop of `_parse_block_start`. -/
def blockStartLoop (lineNum : Nat) : List Char → Nat → BsSt → BsSt
  | [], _, st => st
  | ch :: rest, pos, st =>
    blockStartLoop lineNum rest (pos + 1) (blockStartStep lineNum ch pos st)

/-- The trailing checks of `_parse_block_start` after the character loop:
the `self._tmp_lst` check and the `BSM_END_PARAM` bodyless-block return
(e.g. `//footnote[fnname][footnotecontent]`).  In the source these run
both on the normal path and after the unfinished-inline Error (the
`BSM_PARSE_NAME` early return is an `elif`, everything below it is
not). -/
def blockStartEpilogue (lineNum : Nat) (st : BsSt) :
    Option Block × BsSt :=
  let st1 :=
    if st.tmp ≠ [] then
      { st with diags := st.diags
          ++ [{ level := errorLevel,
                desc := "Unprocessed data is remaining" }] }
    else st
  if st1.state = BsmState.bsmEndParam then
    let blk : Block := { name := st1.name.getD "", params := st1.params,
                         hasContent := false, uniLines := [],
                         lineNum := lineNum }
    (some blk, { st1 with diags := st1.diags ++ blockFirstlineCheck blk })
  else
    (none, st1)

/-- `BlockStateMachine._parse_block_start(line_num, uni_line, content,
pos_start=2)`: scans the post-`//` content and either finishes a bodyless
block (returned, with its first-line check run) or leaves the machine in
`BSM_IN_BLOCK` (returns `none`).  When the embedded inline machine is
unfinished an Error is reported and control falls through to the
epilogue checks; otherwise a line still in `BSM_PARSE_NAME`
(e.g. `//noindent`) returns a parameterless bodyless block at once. -/
def parseBlockStart (lineNum : Nat) (content : List Char) :
    Option Block × BsSt :=
  let st0 : BsSt :=
    { state := BsmState.bsmParseName, name := none, params := [], tmp := [],
      ism := Ism.init lineNum, unfinished := none, diags := [],
      inlines := [] }
  let st := blockStartLoop lineNum content 2 st0
  if st.ism.state ≠ IsmState.ismNone then
    blockStartEpilogue lineNum
      { st with diags := st.diags
          ++ [{ level := errorLevel, desc := "Inline is not finished." }] }
  else if st.state = BsmState.bsmParseName then
    -- e.g. "//noindent"
    let st' := st.nameEnd
    let blk : Block := { name := st'.name.getD "", params := [],
                         hasContent := false, uniLines := [],
                         lineNum := lineNum }
    (some blk, { st' with diags := st'.diags ++ blockFirstlineCheck blk })
  else
    blockStartEpilogue lineNum st

/-- `BlockStateMachine` line-level state plus its diagnostic / inline
output streams. -/
structure Bsm where
  state : BsmState
  name : Option String
  startLineNum : Option Nat
  params : List String
  uniLines : List String
  unfinished : Option Block
  diags : List Diag
  inlines : List Inline
  deriving DecidableEq, Repr

/-- A fresh machine (`__init__` / `reset()`). -/
def Bsm.init : Bsm :=
  { state := BsmState.bsmNone, name := none, startLineNum := none,
    params := [], uniLines := [], unfinished := none, diags := [],
    inlines := [] }

/-- `BlockStateMachine.reset()` (output streams persist in the parser). -/
def Bsm.reset (b : Bsm) : Bsm :=
  { b with state := BsmState.bsmNone, name := none, startLineNum := none,
           params := [], uniLines := [], unfinished := none }

/-- The result of `BlockStateMachine.parse_line`: `None` (line consumed),
a finished `Block`, or the line handed back as a non-block string. -/
inductive BsmLineRet
  | cont
  | blk (b : Block)
  | passthrough (s : String)
  deriving DecidableEq, Repr

/-- `r_end_block` (`^//}(?P<junk>.*)$`) applied to the rstripped line. -/
def matchEndBlock (rstripped : String) : Option String :=
  if strStarts rstripped "//\x7d" then some (strDrop rstripped 3) else none

/-- `r_begin_block` (`^(?P<prefix>//)(?P<content>.+)$`) applied to the
rstripped line. -/
def matchBeginBlock (rstripped : String) : Option String :=
  if strStarts rstripped "//" && strLen rstripped ≥ 3 then
    some (strDrop rstripped 2)
  else none

/-- `BlockStateMachine.parse_line(line_num, uni_line)`.  The `//}` junk
check, the last-line checker invocation on the completed block and the
machine reset mirror the source. -/
def Bsm.parseLine (b : Bsm) (lineNum : Nat) (uniLine : String) :
    BsmLineRet × Bsm :=
  let rstripped := rstrip uniLine
  match b.state with
  | BsmState.bsmNone =>
    match matchEndBlock rstripped with
    | some _ =>
      (BsmLineRet.passthrough uniLine,
       { b with diags := b.diags
           ++ [{ level := errorLevel, desc := "Invalid block end" }] })
    | none =>
      match matchBeginBlock rstripped with
      | some content =>
        let (retBlk, st) := parseBlockStart lineNum (rstrip content).data
        let b' := { b with diags := b.diags ++ st.diags,
                           inlines := b.inlines ++ st.inlines }
        match retBlk with
        | some blk => (BsmLineRet.blk blk, b'.reset)
        | none =>
          (BsmLineRet.cont,
           { b' with state := st.state, name := st.name,
                     params := st.params, unfinished := st.unfinished,
                     startLineNum := some lineNum })
      | none => (BsmLineRet.passthrough uniLine, b)
  | BsmState.bsmInBlock =>
    match matchEndBlock rstripped with
    | some junk =>
      let b1 :=
        if junk ≠ "" then
          { b with diags := b.diags
              ++ [{ level := errorLevel, desc := "Junk after block end." }] }
        else b
      let dummy : Block :=
        { name := "", params := [], hasContent := true, uniLines := [],
          lineNum := 0 }
      -- `new_block = self._unfinished_block` is asserted non-None in the
      -- source; the default is never used from the reachable states.
      let newBlock : Block :=
        { b1.unfinished.getD dummy with uniLines := b1.uniLines }
      let b2 := { b1 with diags := b1.diags ++ blockLastlineCheck newBlock }
      (BsmLineRet.blk newBlock, b2.reset)
    | none =>
      (BsmLineRet.cont, { b with uniLines := b.uniLines ++ [uniLine] })
  | _ => (BsmLineRet.cont, b)  -- unreachable: asserted in the source

/-- Feed a list of lines (numbered from 1, the way
`Parser._parse_file_inter` enumerates) to a block state machine,
collecting the completed blocks. -/
def Bsm.runLines (b : Bsm) : List String → Nat → Bsm × List Block
  | [], _ => (b, [])
  | l :: rest, n =>
    let (ret, b') := b.parseLine n l
    let (b'', blks) := b'.runLines rest (n + 1)
    match ret with
    | BsmLineRet.blk blk => (b'', blk :: blks)
    | _ => (b'', blks)

/-!
## Heading recognition (parser.py, `r_chap` and `Parser._handle_chap`)

`r_chap = ^(?P<level>={1,5})(?P<column>[column]?)(?P<sp>\s*)(?P<title>.*)$`.
`[column]?` is a character class: it optionally matches one single
character drawn from `c, o, l, u, m, n`.  Since the tail groups
(`\s*` and `.*`) always match, the regex engine never backtracks: the
greedy decomposition below is the match.
-/

/-- The characters of the `[column]` class. -/
def columnClassChars : List Char := ['c', 'o', 'l', 'u', 'm', 'n']

/-- The four groups of a successful `r_chap` match. -/
structure ChapMatch where
  level : Nat
  column : String
  sp : String
  title : String
  deriving DecidableEq, Repr

/-- `r_chap.match(rstripped)`: `none` when the line does not start with
`=`.  `level` takes at most 5 `=` (greedy `={1,5}`), `column` takes one
following character iff it belongs to the class, `sp` takes the
whitespace run, `title` the rest. -/
def matchChap (rstripped : String) : Option ChapMatch :=
  let cs := rstripped.data
  let eqs := cs.takeWhile (fun c => c = '=')
  if eqs.isEmpty then none
  else
    let lvl := min eqs.length 5
    let rest1 := cs.drop lvl
    let (col, rest2) :=
      match rest1 with
      | c :: t => if columnClassChars.contains c then ([c], t) else ([], rest1)
      | [] => (([] : List Char), ([] : List Char))
    let sp := rest2.takeWhile isPySpace
    let title := rest2.drop sp.length
    some { level := lvl, column := String.mk col, sp := String.mk sp,
           title := String.mk title }

/-- A bookmark as built by `Parser._handle_chap` (a dict with the `BM_*`
keys; `BM_SOURCE_FILE_NAME` is constant and omitted here). -/
structure Bookmark where
  level : Nat
  title : String
  sourceChapIndex : Option Nat
  sp : String
  isColumn : Bool
  deriving DecidableEq, Repr

/-- `Parser._handle_chap(line_num, uni_line)` reduced to the bookmark it
appends: `none` when `r_chap` does not match (the function returns
`False`).  `is_column = bool(m.group('column'))`; level-1 headings get the
current chapter index. -/
def handleChap (baseLevel chapIndex : Nat) (uniLine : String) :
    Option Bookmark :=
  match matchChap (rstrip uniLine) with
  | none => none
  | some m =>
    some { level := baseLevel + m.level, title := pyStrip m.title,
           sourceChapIndex := if m.level = 1 then some chapIndex else none,
           sp := m.sp, isColumn := m.column ≠ "" }

/-!
## Parser construction (parser.py, `Parser.__init__`)
-/

/-- The fields of `Parser.__init__` relevant to threshold handling: the
stored constructor arguments and the `ProblemReporter` it builds.  The
reporter is constructed with the hard-coded arguments
`ignore_threshold=INFO, abort_threshold=CRITICAL`. -/
structure ParserCfg where
  ignoreThreshold : Nat
  abortThreshold : Nat
  reporter : ProblemReporter
  deriving DecidableEq, Repr

/-- `Parser.__init__(project, ignore_threshold, abort_threshold)`
restricted to its threshold handling. -/
def parserInit (ignoreThreshold abortThreshold : Nat) : ParserCfg :=
  { ignoreThreshold := ignoreThreshold,
    abortThreshold := abortThreshold,
    reporter := { problems := [],
                  ignoreThreshold := infoLevel,
                  abortThreshold := criticalLevel } }

/-!
## Catalog discovery (project.py)
-/

/-- The candidate list iterated by
`ReVIEWProject._recognize_new_catalog_files`
(`for candidate in ['catalog.yml', 'config.yaml']`). -/
def newCatalogCandidates : List String := ["catalog.yml", "config.yaml"]

/-- `_recognize_new_catalog_files`, abstracted over which filenames
`_try_parse_catalog_file` succeeds on: the first candidate that parses is
used. -/
def recognizeNewCatalogFiles (tryParse : String → Bool) : Option String :=
  newCatalogCandidates.find? tryParse

/-!
## Legacy catalog recognition (project.py,
`ReVIEWProject._recognize_legacy_catalog_files`, PART branch)

The CHAPS loop is abstracted over `_is_appropriate_re_file` (a predicate
on filenames).  The final `parts.append((part_titles[current_part],
part_chaps))` indexes `part_titles` unconditionally; an out-of-range index
(Python `IndexError`) is modelled as `none`.
-/

/-- The `for line in file(chaps_path)` loop when valid part titles exist:
returns the accumulated `(title, chaps)` pairs, the final `current_part`,
and the trailing `part_chaps` group. -/
def legacyChapsLoop (ok : String → Bool) (titles : List String) :
    List String → Nat → List (String × List String) → List String →
    List (String × List String) × Nat × List String
  | [], cur, parts, partChaps => (parts, cur, partChaps)
  | line :: rest, cur, parts, partChaps =>
    let filename := rstrip line
    if filename = "" then
      if cur < titles.length then
        legacyChapsLoop ok titles rest (cur + 1)
          (parts ++ [(titles.getD cur "", partChaps)]) []
      else
        -- Blank line with no relevant part name: ignored.
        legacyChapsLoop ok titles rest cur parts partChaps
    else if ok filename then
      legacyChapsLoop ok titles rest cur parts (partChaps ++ [filename])
    else
      legacyChapsLoop ok titles rest cur parts partChaps

/-- The PART branch of `_recognize_legacy_catalog_files`: after the loop
the source runs `parts.append((part_titles[current_part], part_chaps))`;
when `current_part` equals the number of titles this raises `IndexError`,
modelled as `none`. -/
def recognizeLegacyParts (ok : String → Bool) (titles : List String)
    (chapsLines : List String) : Option (List (String × List String)) :=
  let (parts, cur, partChaps) := legacyChapsLoop ok titles chapsLines 0 [] []
  match titles.get? cur with
  | some t => some (parts ++ [(t, partChaps)])
  | none => none

/-!
## Filename verification (project.py, `_verify_filename`)

Paths are modelled as plain strings.  `os.path.join(source_dir, filename)`
concatenates with a separator (absolute `filename` replaces the base);
`os.path.abspath` collapses `.`, `..` and empty components (`source_dir`
is absolute in every use).  The containment test of the source is the
Python substring operator `source_dir not in abs_path`.
-/

/-- `os.path.join(dir, fn)` for the cases exercised here. -/
def pyJoin (dir fn : String) : String :=
  if strStarts fn "/" then fn else dir ++ "/" ++ fn

/-- Split a character list on `/` (like `str.split('/')`). -/
def splitOnSlash (cs : List Char) : List (List Char) :=
  match cs with
  | [] => [[]]
  | c :: rest =>
    let r := splitOnSlash rest
    if c = '/' then [] :: r
    else
      match r with
      | [] => [[c]]
      | g :: gs => (c :: g) :: gs

/-- Join components with `/` separators. -/
def joinSlash : List (List Char) → List Char
  | [] => []
  | [g] => g
  | g :: gs => g ++ '/' :: joinSlash gs

/-- `os.path.abspath` on an absolute path: split on `/`, drop empty and
`.` components, resolve `..` against the stack, re-render from the
root. -/
def absNorm (p : String) : String :=
  let comps := (splitOnSlash p.data).filter
    (fun c => c ≠ [] && c ≠ ['.'])
  let folded := comps.foldl
    (fun acc c => if c = ['.', '.'] then acc.dropLast else acc ++ [c]) []
  String.mk ('/' :: joinSlash folded)

/-- Python's `needle in haystack` substring test. -/
def strContainsSub (haystack needle : String) : Bool :=
  (List.range (strLen haystack + 1)).any
    (fun i => needle.data.isPrefixOf (haystack.data.drop i))

/-- `_verify_filename(source_dir, filename)`, abstracted over the
filesystem (`os.path.exists` and `os.path.islink`).  Returns the absolute
path when the checks pass, `none` otherwise. -/
def verifyFilename (fsExists isSymlink : String → Bool)
    (sourceDir filename : String) : Option String :=
  let absPath := absNorm (pyJoin sourceDir filename)
  if ¬ strContainsSub absPath sourceDir then none
  else if ¬ fsExists absPath then none
  else if isSymlink absPath then none
  else some absPath

/-- Modelled from the spec (invariants section): a path lies inside
`source_dir` when it equals the directory or sits strictly below it.
This is the containment property the claim asserts of accepted names; it
is compared against what `_verify_filename` actually accepts. -/
def specInsideDir (sourceDir p : String) : Bool :=
  p = sourceDir || strIsPrefixOf (sourceDir ++ "/") p

/-!
## Image association (project.py, `ReVIEWProject._recognize_image_files`)

The directory listing of `image_dir` is modelled as a sorted list of
entries, each a plain file or a subdirectory with its own listing.  The
association map `self.images` is an ordered association list; `setdefault`
adds a `(key, [])` entry at the end when the key is missing.
-/

/-- One entry of the sorted `os.listdir(image_dir_path)` listing. -/
inductive ImgEntry
  | file (name : String)
  | dir (name : String) (contents : List String)
  deriving DecidableEq, Repr

/-- The listed name of an entry. -/
def ImgEntry.name : ImgEntry → String
  | ImgEntry.file n => n
  | ImgEntry.dir n _ => n

/-- `os.path.splitext`: split off the extension at the last dot, never
splitting a leading-dots-only basename (e.g. `.re` stays whole). -/
def splitext (s : String) : String × String :=
  let cs := s.data
  let base := cs.takeWhile (fun c => c = '.')
  let rest := cs.drop base.length
  match (rest.reverse.takeWhile (fun c => c ≠ '.')).reverse, rest with
  | ext, _ :: _ =>
    if ext.length = rest.length then (s, "")
    else (String.mk (base ++ rest.take (rest.length - ext.length - 1)),
          String.mk ('.' :: ext))
  | _, [] => (s, "")

/-- `self.images` with `setdefault(key, [])`: returns the list unchanged
when the key is present, otherwise appends an empty entry. -/
def imagesSetdefault (images : List (String × List String))
    (key : String) : List (String × List String) :=
  if images.any (fun kv => kv.1 = key) then images else images ++ [(key, [])]

/-- `setdefault(key, []).append(v)`: append `v` to the entry of `key`,
creating the entry if needed. -/
def imagesAppend (images : List (String × List String))
    (key : String) (v : String) : List (String × List String) :=
  if images.any (fun kv => kv.1 = key) then
    images.map (fun kv => if kv.1 = key then (kv.1, kv.2 ++ [v]) else kv)
  else images ++ [(key, [v])]

/-- The association state: `self.images` (values reduced to the images'
relative paths) and `self.unmappable_images`. -/
structure ImgAssoc where
  images : List (String × List String)
  unmappable : List String
  deriving DecidableEq, Repr

/-- Python string comparison (`<` on code points), as used by
`parent_id < image_filename`. -/
def pyStrLt (a b : String) : Bool := chListLt a.data b.data

/-- The merge walk of `_recognize_image_files` over the sorted document
list and the sorted image-directory listing.  Each branch mirrors the
source: a subdirectory matching the document id contributes one
ProjectImage per contained file; a plain file `doc-<id>.<ext>` joins its
document; a document smaller than the current entry is passed with a
`setdefault`; anything else is unmappable.  The walk ends when either
list is exhausted.
The walk also returns the suffix of the document list it never consumed
(`parent_filenames[i_parents:]` when the `while` loop exits), which is
needed to state what the loop guarantees. -/
def imageWalk (imageDir : String) :
    List String → List ImgEntry → ImgAssoc → ImgAssoc × List String
  | [], _, acc => (acc, [])
  | parents, [], acc => (acc, parents)
  | parent :: parents, entry :: entries, acc =>
    let parentId := (splitext parent).1
    let relPath := imageDir ++ "/" ++ entry.name
    match entry with
    | ImgEntry.dir dirName contents =>
      if parentId = dirName then
        let addOne : ImgAssoc → String → ImgAssoc := fun a f =>
          { a with
            images := imagesAppend a.images parent (relPath ++ "/" ++ f) }
        let acc' := contents.foldl addOne acc
        imageWalk imageDir parents entries acc'
      else if pyStrLt parentId dirName then
        imageWalk imageDir parents (ImgEntry.dir dirName contents :: entries)
          { acc with images := imagesSetdefault acc.images parent }
      else
        imageWalk imageDir (parent :: parents) entries
          { acc with unmappable := acc.unmappable ++ [dirName] }
    | ImgEntry.file fileName =>
      let head := (splitext fileName).1
      if strIsPrefixOf (parentId ++ "-") head then
        imageWalk imageDir (parent :: parents) entries
          { acc with images := imagesAppend acc.images parent relPath }
      else if pyStrLt parentId head then
        imageWalk imageDir parents (ImgEntry.file fileName :: entries)
          { acc with images := imagesSetdefault acc.images parent }
      else
        imageWalk imageDir (parent :: parents) entries
          { acc with unmappable := acc.unmappable ++ [fileName] }

/-- `_recognize_image_files` starting from empty state. -/
def recognizeImageFiles (imageDir : String) (parents : List String)
    (entries : List ImgEntry) : ImgAssoc :=
  (imageWalk imageDir parents entries { images := [], unmappable := [] }).1

/-- The keys of the association map (`self.images.keys()` /
`has_key`). -/
def imagesKeys (images : List (String × List String)) : List String :=
  images.map Prod.fst

/-- `ReVIEWProject.get_images_for_source`: dictionary lookup with `[]` as
default. -/
def getImagesForSource (images : List (String × List String))
    (reFile : String) : List String :=
  match images.find? (fun kv => kv.1 = reFile) with
  | some kv => kv.2
  | none => []

/-!
## Theorems settling the claims
-/

/-- C1: for every call `report(severity, source, line, description,
context)` on a `ProblemReporter`: below `ignore_threshold` the call
returns `None` and the retained list is unchanged; at or above
`abort_threshold` it raises the constructed `Problem`; otherwise the
`Problem` is appended to the retained list and returned. -/
theorem report_threshold_behavior (r : ProblemReporter) (lvl : Nat)
    (src : String) (line : Option Nat) (desc : String)
    (raw : Option String) :
    (lvl < r.ignoreThreshold →
       r.report lvl src line desc raw = (ReportResult.ignored, r)) ∧
    (¬ lvl < r.ignoreThreshold → lvl ≥ r.abortThreshold →
       r.report lvl src line desc raw =
         (ReportResult.raised
            { cls := classifyProblem lvl, sourceName := src,
              lineNum := line, desc := desc, rawContent := raw }, r)) ∧
    (¬ lvl < r.ignoreThreshold → ¬ lvl ≥ r.abortThreshold →
       r.report lvl src line desc raw =
         (ReportResult.stored
            { cls := classifyProblem lvl, sourceName := src,
              lineNum := line, desc := desc, rawContent := raw },
          { r with problems := r.problems ++
              [{ cls := classifyProblem lvl, sourceName := src,
                 lineNum := line, desc := desc, rawContent := raw }] })) := by
  refine ⟨fun h => ?_, fun h1 h2 => ?_, fun h1 h2 => ?_⟩
  · simp [ProblemReporter.report, h]
  · simp [ProblemReporter.report, h1, h2]
  · simp [ProblemReporter.report, h1, h2]

/-- Witness for C1: the three regimes at concrete inputs, with the default
parser thresholds (INFO = 20, CRITICAL = 50): DEBUG is ignored, CRITICAL
raises, ERROR is stored and returned. -/
theorem report_threshold_behavior_witness :
    (ProblemReporter.report ⟨[], 20, 50⟩ 10 "s" none "d" none =
       (ReportResult.ignored, ⟨[], 20, 50⟩)) ∧
    (ProblemReporter.report ⟨[], 20, 50⟩ 50 "s" none "d" none =
       (ReportResult.raised ⟨ProblemClass.parseError, "s", none, "d", none⟩,
        ⟨[], 20, 50⟩)) ∧
    (ProblemReporter.report ⟨[], 20, 50⟩ 40 "s" none "d" none =
       (ReportResult.stored ⟨ProblemClass.parseError, "s", none, "d", none⟩,
        ⟨[⟨ProblemClass.parseError, "s", none, "d", none⟩], 20, 50⟩)) := by
  refine ⟨?_, ?_, ?_⟩
  · exact (report_threshold_behavior ⟨[], 20, 50⟩ 10 "s" none "d" none).1
      (by norm_num)
  · simpa [classifyProblem, errorLevel] using
      (report_threshold_behavior ⟨[], 20, 50⟩ 50 "s" none "d" none).2.1
        (by norm_num) (by norm_num)
  · simpa [classifyProblem, errorLevel] using
      (report_threshold_behavior ⟨[], 20, 50⟩ 40 "s" none "d" none).2.2
        (by norm_num) (by norm_num)

/-- C2 (code bug): in state `ISM_INLINE_CONTENT_AT`, a character other
than `}`, `<`, `@` appends `@` plus the character to the accumulated
content but leaves the state at `ISM_INLINE_CONTENT_AT` instead of moving
to `ISM_INLINE_CONTENT` (the source line `self.state ==
ISM_INLINE_CONTENT` is a comparison, not an assignment).  Consequently
`@<b>{x@y}` is recognised with raw content `x@y@` — the closing brace is
handled by the AT state and appends a spurious `@`. -/
theorem ismContentAtOther_state_unchanged :
    ((((Ism.init 1).run "@<b>\x7bx@".data 0).1).state =
        IsmState.ismInlineContentAT) ∧
    (((((Ism.init 1).run "@<b>\x7bx@".data 0).1).parseCh 'y' 7).2.state =
        IsmState.ismInlineContentAT) ∧
    (((((Ism.init 1).run "@<b>\x7bx@".data 0).1).parseCh 'y' 7).2.unprocessed
        = ['x', '@', 'y']) ∧
    (((Ism.init 1).run "@<b>\x7bx@y\x7d".data 0).2.contains
        (IsmRet.inl ⟨"b", "x@y@", 1, 8⟩) = true) := by decide

/-- C3 counterexample: an inline state machine left in the
backslash-inside-content state `ISM_INLINE_CONTENT_BS` at end of line —
reachable by feeding `@<b>{a\` — makes `end()` raise
`NotImplementedError` without reporting any diagnostic, contradicting the
claim that every state other than `NONE` / `AT` reports an Error through
the reporter. -/
theorem ismEnd_bs_counterexample :
    ((((Ism.init 1).run "@<b>\x7ba\\".data 0).1).state =
        IsmState.ismInlineContentBS) ∧
    ((((Ism.init 1).run "@<b>\x7ba\\".data 0).1).endOfLine =
        (IsmEndRet.notImplementedError, [])) := by decide

/-- C3 (amended): `end()` returns nothing in `NONE` when no buffered
passthrough content remains and raises `AssertionError` in `NONE` when it
does; returns the buffered `@` in `AT`; reports an Error in `IN_TAG`,
`END_TAG`, `IN_CONTENT` and `IN_CONTENT_AT`; and raises
`NotImplementedError` in `IN_CONTENT_BS`. -/
theorem ismEnd_per_state (m : Ism) :
    (m.state = IsmState.ismNone → m.unprocessed = [] →
       m.endOfLine = (IsmEndRet.noRet, [])) ∧
    (m.state = IsmState.ismNone → m.unprocessed ≠ [] →
       m.endOfLine = (IsmEndRet.assertionError, [])) ∧
    (m.state = IsmState.ismAt →
       m.endOfLine = (IsmEndRet.passthrough "@", [])) ∧
    ((m.state = IsmState.ismInlineTag ∨ m.state = IsmState.ismEndInlineTag ∨
      m.state = IsmState.ismInlineContent ∨
      m.state = IsmState.ismInlineContentAT) →
       m.endOfLine =
         (IsmEndRet.noRet,
          [{ level := errorLevel, desc := "Invalid state" }])) ∧
    (m.state = IsmState.ismInlineContentBS →
       m.endOfLine = (IsmEndRet.notImplementedError, [])) := by
  obtain ⟨ln, st, up, nm, dg⟩ := m
  cases st <;> simp [Ism.endOfLine]

/-- Witness for C3 (amended): the five regimes at concrete machines; the
`AssertionError` regime is exercised at the machine actually reached by
feeding the line `@<b>x` (END_TAG recovery leaves state `NONE` with
`unprocessed = ['x']`). -/
theorem ismEnd_per_state_witness :
    ((Ism.init 1).endOfLine = (IsmEndRet.noRet, [])) ∧
    ((((Ism.init 1).run "@<b>x".data 0).1).endOfLine =
       (IsmEndRet.assertionError, [])) ∧
    (({ Ism.init 1 with state := IsmState.ismAt }).endOfLine =
       (IsmEndRet.passthrough "@", [])) ∧
    (({ Ism.init 1 with state := IsmState.ismInlineContent }).endOfLine =
       (IsmEndRet.noRet,
        [{ level := errorLevel, desc := "Invalid state" }])) ∧
    (({ Ism.init 1 with state := IsmState.ismInlineContentBS }).endOfLine =
       (IsmEndRet.notImplementedError, [])) :=
  ⟨(ismEnd_per_state _).1 rfl rfl,
   (ismEnd_per_state _).2.1 (by decide) (by decide),
   (ismEnd_per_state _).2.2.1 rfl,
   (ismEnd_per_state _).2.2.2.1 (Or.inr (Or.inr (Or.inl rfl))),
   (ismEnd_per_state _).2.2.2.2 rfl⟩

/-- C4 counterexample: the bodyless block `//footnote[a]` has one
parameter where the schema demands two, yet no diagnostic of any severity
is reported (the parameter-count closure is the *last-line* checker and
never runs for one-line blocks); and for the body block
`//emlist{ ... //}` with zero parameters the diagnostic that is reported
carries severity ERROR (40), not WARNING (30). -/
theorem blockParamCount_counterexample :
    ((Bsm.init.runLines ["//footnote[a]"] 1).1.diags = []) ∧
    ((Bsm.init.runLines ["//footnote[a]"] 1).2 =
       [{ name := "footnote", params := ["a"], hasContent := false,
          uniLines := [], lineNum := 1 }]) ∧
    (knownBlockParamCount "footnote" = some 2) ∧
    ((Bsm.init.runLines ["//emlist\x7b", "x", "//\x7d"] 1).1.diags =
       [{ level := errorLevel, desc := "Illegal number of params" }]) ∧
    (∀ d ∈ (Bsm.init.runLines ["//emlist\x7b", "x", "//\x7d"] 1).1.diags,
       d.level ≠ warningLevel) := by decide

/-- C4 (amended): for a block *with a body* whose name the schema knows,
closing the body with `//}` runs the last-line parameter-count check and
reports an **Error** iff the parameter count differs from the schema;
the first-line check run for bodyless blocks never checks parameter
counts for known names. -/
theorem blockParamCount_checked_at_body_close (bsm : Bsm) (b : Block)
    (n k : Nat) (hst : bsm.state = BsmState.bsmInBlock)
    (hub : bsm.unfinished = some b)
    (hk : knownBlockParamCount b.name = some k) :
    ((bsm.parseLine n "//\x7d").2.diags =
       bsm.diags ++
         (if b.params.length ≠ k then
            [{ level := errorLevel, desc := "Illegal number of params" }]
          else [])) ∧
    ((bsm.parseLine n "//\x7d").1 =
       BsmLineRet.blk { b with uniLines := bsm.uniLines }) ∧
    (blockFirstlineCheck b = []) := by
  obtain ⟨st, nm, sln, ps, ul, uf, dg, il⟩ := bsm
  dsimp only at hst hub
  subst hst
  subst hub
  have hend : matchEndBlock (rstrip "//\x7d") = some "" := by decide
  refine ⟨?_, ?_, ?_⟩
  · simp [Bsm.parseLine, hend, blockLastlineCheck, hk, Bsm.reset]
  · simp [Bsm.parseLine, hend, Bsm.reset]
  · simp [blockFirstlineCheck, hk]

/-- Witness for C4 (amended): an `emlist` body block with zero parameters
closed at line 3 yields the Error diagnostic. -/
theorem blockParamCount_checked_at_body_close_witness :
    (((⟨BsmState.bsmInBlock, none, none, [], ["x"],
        some ⟨"emlist", [], true, [], 1⟩, [], []⟩ : Bsm).parseLine
          3 "//\x7d").2.diags =
       [{ level := errorLevel, desc := "Illegal number of params" }]) ∧
    (((⟨BsmState.bsmInBlock, none, none, [], ["x"],
        some ⟨"emlist", [], true, [], 1⟩, [], []⟩ : Bsm).parseLine
          3 "//\x7d").1 =
       BsmLineRet.blk ⟨"emlist", [], true, ["x"], 1⟩) := by
  have h := blockParamCount_checked_at_body_close
    ⟨BsmState.bsmInBlock, none, none, [], ["x"],
      some ⟨"emlist", [], true, [], 1⟩, [], []⟩
    ⟨"emlist", [], true, [], 1⟩ 3 1 rfl rfl rfl
  exact ⟨by simpa using h.1, by simpa using h.2.1⟩

/-- C5 (code bug): `_recognize_new_catalog_files` iterates
`['catalog.yml', 'config.yaml']`, not `['catalog.yml', 'catalog.yaml']`:
a project whose only new-format catalog is `catalog.yaml` is not
recognised, while `config.yaml` is tried as a catalog. -/
theorem newCatalogCandidates_wrong_pair :
    (recognizeNewCatalogFiles (fun s => s == "catalog.yaml") = none) ∧
    (recognizeNewCatalogFiles (fun s => s == "config.yaml") =
       some "config.yaml") ∧
    ("catalog.yaml" ∉ newCatalogCandidates) ∧
    ("config.yaml" ∈ newCatalogCandidates) := by decide

/-- C6 (code bug): with `PART = [P1]` and `CHAPS` containing one blank
line (`a.re`, blank, `b.re`), the final
`parts.append((part_titles[current_part], part_chaps))` indexes
`part_titles[1]` out of range — recognition raises `IndexError` (modelled
as `none`) instead of appending `b.re` to the last part; without the
blank line the same catalog is recognised normally. -/
theorem legacyParts_final_index_out_of_range :
    (recognizeLegacyParts (fun _ => true) ["P1"] ["a.re", "", "b.re"] =
       none) ∧
    (recognizeLegacyParts (fun _ => true) ["P1"] ["a.re", "b.re"] =
       some [("P1", ["a.re", "b.re"])]) ∧
    (recognizeLegacyParts (fun _ => true) ["P1", "P2"]
       ["a.re", "", "b.re"] = some [("P1", ["a.re"]), ("P2", ["b.re"])]) :=
  by decide

/-- C7 (code bug): the containment test of `_verify_filename` is the
Python substring operator, so `source_dir = /a/b` accepts
`filename = ../bc/f.re` (absolute path `/a/bc/f.re`, which merely
*contains* the substring `/a/b` and lies outside the directory), while
the existence and symlink conjuncts do reject as claimed. -/
theorem verifyFilename_substring_escape :
    (verifyFilename (fun _ => true) (fun _ => false) "/a/b" "../bc/f.re" =
       some "/a/bc/f.re") ∧
    (specInsideDir "/a/b" "/a/bc/f.re" = false) ∧
    (verifyFilename (fun _ => false) (fun _ => false) "/a/b" "../bc/f.re" =
       none) ∧
    (verifyFilename (fun _ => true) (fun _ => true) "/a/b" "../bc/f.re" =
       none) := by decide

/-- C9 (code bug): `r_chap`'s `[column]?` is a character class, so the
heading `=concept` (title merely beginning with `c`) produces a bookmark
with `is_column = True` and mangled title `oncept`; even the intended
`=column Foo` consumes only the `c`, leaving title `olumn Foo`; a title
starting outside the class is not marked. -/
theorem chapColumn_single_char_marks_column :
    (handleChap 0 0 "=concept" =
       some { level := 1, title := "oncept", sourceChapIndex := some 0,
              sp := "", isColumn := true }) ∧
    (handleChap 0 0 "=column Foo" =
       some { level := 1, title := "olumn Foo", sourceChapIndex := some 0,
              sp := "", isColumn := true }) ∧
    (handleChap 0 0 "=x Foo" =
       some { level := 1, title := "x Foo", sourceChapIndex := some 0,
              sp := "", isColumn := false }) := by decide

/-- C10: whatever `ignore_threshold` / `abort_threshold` arguments
`Parser.__init__` receives, it stores them but constructs its
`ProblemReporter` with the fixed thresholds INFO and CRITICAL, so the
reporter is identical for every choice of constructor thresholds. -/
theorem parserInit_fixed_reporter_thresholds (i a : Nat) :
    ((parserInit i a).reporter.ignoreThreshold = infoLevel) ∧
    ((parserInit i a).reporter.abortThreshold = criticalLevel) ∧
    ((parserInit i a).ignoreThreshold = i) ∧
    ((parserInit i a).abortThreshold = a) ∧
    ((parserInit i a).reporter =
       (parserInit infoLevel criticalLevel).reporter) :=
  ⟨rfl, rfl, rfl, rfl, rfl⟩


/-- Keys are preserved by the in-place update `imagesAppend` performs when
the key is already present. -/
theorem imagesKeys_update_eq (im : List (String × List String))
    (key : String) (v : String) :
    imagesKeys (im.map (fun kv =>
      if kv.1 = key then (kv.1, kv.2 ++ [v]) else kv)) = imagesKeys im := by
  induction im with
  | nil => rfl
  | cons kv rest ih =>
    simp only [imagesKeys, List.map_cons] at ih ⊢
    by_cases h : kv.1 = key <;> simp [h, ih]

/-- `setdefault` keeps every existing key. -/
theorem mem_imagesKeys_setdefault_mono (im : List (String × List String))
    (key k : String) (hk : k ∈ imagesKeys im) :
    k ∈ imagesKeys (imagesSetdefault im key) := by
  unfold imagesSetdefault
  split
  · exact hk
  · simp only [imagesKeys, List.map_append] at hk ⊢
    exact List.mem_append_left _ hk

/-- After `setdefault key` the key is a key. -/
theorem mem_imagesKeys_setdefault_self (im : List (String × List String))
    (key : String) : key ∈ imagesKeys (imagesSetdefault im key) := by
  unfold imagesSetdefault
  split
  · next h =>
    simp only [List.any_eq_true, decide_eq_true_eq] at h
    obtain ⟨kv, hmem, hfst⟩ := h
    exact List.mem_map.mpr ⟨kv, hmem, hfst⟩
  · simp [imagesKeys]

/-- `setdefault(key, []).append(v)` keeps every existing key. -/
theorem mem_imagesKeys_append_mono (im : List (String × List String))
    (key v k : String) (hk : k ∈ imagesKeys im) :
    k ∈ imagesKeys (imagesAppend im key v) := by
  unfold imagesAppend
  split
  · rw [imagesKeys_update_eq]; exact hk
  · simp only [imagesKeys, List.map_append] at hk ⊢
    exact List.mem_append_left _ hk

/-- After `setdefault(key, []).append(v)` the key is a key. -/
theorem mem_imagesKeys_append_self (im : List (String × List String))
    (key v : String) : key ∈ imagesKeys (imagesAppend im key v) := by
  unfold imagesAppend
  split
  · next h =>
    rw [imagesKeys_update_eq]
    simp only [List.any_eq_true, decide_eq_true_eq] at h
    obtain ⟨kv, hmem, hfst⟩ := h
    exact List.mem_map.mpr ⟨kv, hmem, hfst⟩
  · simp [imagesKeys]

/-- The per-file loop of the matching-subdirectory branch keeps keys. -/
theorem foldl_addOne_keys_mono (parent rel : String) :
    ∀ (cs : List String) (a : ImgAssoc) (k : String),
      k ∈ imagesKeys a.images →
      k ∈ imagesKeys ((cs.foldl (fun a f =>
        { a with images := imagesAppend a.images parent (rel ++ "/" ++ f) })
          a).images) := by
  intro cs
  induction cs with
  | nil => intro a k hk; exact hk
  | cons c cs ih =>
    intro a k hk
    exact ih _ _ (mem_imagesKeys_append_mono _ _ _ _ hk)

/-- A non-empty matching subdirectory gives its document a key. -/
theorem foldl_addOne_keys_self (parent rel : String) (cs : List String)
    (a : ImgAssoc) (hcs : cs ≠ []) :
    parent ∈ imagesKeys ((cs.foldl (fun a f =>
      { a with images := imagesAppend a.images parent (rel ++ "/" ++ f) })
        a).images) := by
  match cs, hcs with
  | c :: cs', _ =>
    simp only [List.foldl_cons]
    exact foldl_addOne_keys_mono parent rel cs' _ parent
      (mem_imagesKeys_append_self _ _ _)

/-- Every key present before the merge walk is still a key afterwards. -/
theorem imageWalk_keys_mono (d : String) :
    ∀ (ps : List String) (es : List ImgEntry) (acc : ImgAssoc),
    ∀ k, k ∈ imagesKeys acc.images →
      k ∈ imagesKeys ((imageWalk d ps es acc).1.images) := by
  intro ps es acc
  induction ps, es, acc using imageWalk.induct d with
  | case1 es acc => intro k hk; simp only [imageWalk]; exact hk
  | case2 ps acc hne =>
    intro k hk
    cases ps with
    | nil => exact absurd rfl hne
    | cons q qs => simp only [imageWalk]; exact hk
  | case3 parent parents entries acc pid contents rel addOne acc' ih =>
    intro k hk
    simp only [imageWalk, if_pos rfl]
    exact ih k (foldl_addOne_keys_mono _ _ _ _ _ hk)
  | case4 parent parents entries acc pid dirName contents h1 h2 ih =>
    intro k hk
    simp only [imageWalk, if_neg h1, if_pos h2]
    exact ih k (mem_imagesKeys_setdefault_mono _ _ _ hk)
  | case5 parent parents entries acc pid dirName contents h1 h2 ih =>
    intro k hk
    simp only [imageWalk, if_neg h1, if_neg h2]
    exact ih k hk
  | case6 parent parents entries acc pid fileName hd h1 rel ih =>
    intro k hk
    simp only [imageWalk, if_pos h1]
    exact ih k (mem_imagesKeys_append_mono _ _ _ _ hk)
  | case7 parent parents entries acc pid fileName hd h1 h2 ih =>
    intro k hk
    simp only [imageWalk, if_neg h1, if_pos h2]
    exact ih k (mem_imagesKeys_setdefault_mono _ _ _ hk)
  | case8 parent parents entries acc pid fileName hd h1 h2 ih =>
    intro k hk
    simp only [imageWalk, if_neg h1, if_neg h2]
    exact ih k hk

/-- General form of the amended C8 statement, for an arbitrary starting
accumulator.  The proviso only concerns subdirectory entries whose name
matches the id of one of the listed documents: those are the only
directories the walk ever descends into. -/
theorem imageWalk_consumed_mem (d : String) :
    ∀ (ps : List String) (es : List ImgEntry) (acc : ImgAssoc),
    (∀ nm cs, ImgEntry.dir nm cs ∈ es →
       (∃ q ∈ ps, (splitext q).1 = nm) → cs ≠ []) →
    ∀ p, p ∈ ps → p ∉ (imageWalk d ps es acc).2 →
      p ∈ imagesKeys ((imageWalk d ps es acc).1.images) := by
  intro ps es acc
  induction ps, es, acc using imageWalk.induct d with
  | case1 es acc => intro _ p hp _; cases hp
  | case2 ps acc hne =>
    intro _ p hp hrem
    cases ps with
    | nil => exact absurd rfl hne
    | cons q qs => simp only [imageWalk] at hrem; exact absurd hp hrem
  | case3 parent parents entries acc pid contents rel addOne acc' ih =>
    intro hdirs p hp hrem
    simp only [imageWalk, if_pos rfl] at hrem ⊢
    have hcs : contents ≠ [] :=
      hdirs _ _ (List.mem_cons_self _ _)
        ⟨parent, List.mem_cons_self _ _, rfl⟩
    have hd' : ∀ nm cs, ImgEntry.dir nm cs ∈ entries →
        (∃ q ∈ parents, (splitext q).1 = nm) → cs ≠ [] := by
      intro nm cs hin hex
      obtain ⟨q, hq, hqe⟩ := hex
      exact hdirs nm cs (List.mem_cons_of_mem _ hin)
        ⟨q, List.mem_cons_of_mem _ hq, hqe⟩
    rcases List.mem_cons.mp hp with hpe | hpt
    · subst hpe
      exact imageWalk_keys_mono d _ _ _ _
        (foldl_addOne_keys_self _ _ _ _ hcs)
    · exact ih hd' p hpt hrem
  | case4 parent parents entries acc pid dirName contents h1 h2 ih =>
    intro hdirs p hp hrem
    simp only [imageWalk, if_neg h1, if_pos h2] at hrem ⊢
    have hd' : ∀ nm cs,
        ImgEntry.dir nm cs ∈ (ImgEntry.dir dirName contents :: entries) →
        (∃ q ∈ parents, (splitext q).1 = nm) → cs ≠ [] := by
      intro nm cs hin hex
      obtain ⟨q, hq, hqe⟩ := hex
      exact hdirs nm cs hin ⟨q, List.mem_cons_of_mem _ hq, hqe⟩
    rcases List.mem_cons.mp hp with hpe | hpt
    · subst hpe
      exact imageWalk_keys_mono d _ _ _ _
        (mem_imagesKeys_setdefault_self _ _)
    · exact ih hd' p hpt hrem
  | case5 parent parents entries acc pid dirName contents h1 h2 ih =>
    intro hdirs p hp hrem
    simp only [imageWalk, if_neg h1, if_neg h2] at hrem ⊢
    exact ih (fun nm cs hin hex =>
        hdirs nm cs (List.mem_cons_of_mem _ hin) hex)
      p hp hrem
  | case6 parent parents entries acc pid fileName hd h1 rel ih =>
    intro hdirs p hp hrem
    simp only [imageWalk, if_pos h1] at hrem ⊢
    exact ih (fun nm cs hin hex =>
        hdirs nm cs (List.mem_cons_of_mem _ hin) hex)
      p hp hrem
  | case7 parent parents entries acc pid fileName hd h1 h2 ih =>
    intro hdirs p hp hrem
    simp only [imageWalk, if_neg h1, if_pos h2] at hrem ⊢
    have hd' : ∀ nm cs,
        ImgEntry.dir nm cs ∈ (ImgEntry.file fileName :: entries) →
        (∃ q ∈ parents, (splitext q).1 = nm) → cs ≠ [] := by
      intro nm cs hin hex
      obtain ⟨q, hq, hqe⟩ := hex
      exact hdirs nm cs hin ⟨q, List.mem_cons_of_mem _ hq, hqe⟩
    rcases List.mem_cons.mp hp with hpe | hpt
    · subst hpe
      exact imageWalk_keys_mono d _ _ _ _
        (mem_imagesKeys_setdefault_self _ _)
    · exact ih hd' p hpt hrem
  | case8 parent parents entries acc pid fileName hd h1 h2 ih =>
    intro hdirs p hp hrem
    simp only [imageWalk, if_neg h1, if_neg h2] at hrem ⊢
    exact ih (fun nm cs hin hex =>
        hdirs nm cs (List.mem_cons_of_mem _ hin) hex)
      p hp hrem

/-- C8 counterexample: with documents `a.re`, `b.re` and the single image
file `a-x.png`, the merge walk exhausts the image list while handling
`a.re`; `b.re` — which sorts after the last image entry — gets no entry
in the mapping at all (`get_images_for_source` only recovers via its
lookup default). -/
theorem imageAssoc_document_without_entry :
    ((recognizeImageFiles "images" ["a.re", "b.re"]
        [ImgEntry.file "a-x.png"]).images =
       [("a.re", ["images/a-x.png"])]) ∧
    ("b.re" ∉ imagesKeys (recognizeImageFiles "images" ["a.re", "b.re"]
        [ImgEntry.file "a-x.png"]).images) ∧
    (getImagesForSource (recognizeImageFiles "images" ["a.re", "b.re"]
        [ImgEntry.file "a-x.png"]).images "b.re" = []) := by
  have h : (recognizeImageFiles "images" ["a.re", "b.re"]
      [ImgEntry.file "a-x.png"]).images = [("a.re", ["images/a-x.png"])] := by
    simp only [recognizeImageFiles]
    simp [imageWalk, splitext, pyStrLt, chListLt, strIsPrefixOf,
          imagesAppend, imagesSetdefault, List.isPrefixOf, ImgEntry.name]
  refine ⟨h, ?_, ?_⟩
  · rw [h]; decide
  · rw [h]; decide

/-- C8 (amended): every document the merge walk consumed — that is, every
listed document not in the suffix still unprocessed when the walk
stopped — has an entry in the images mapping (an empty sequence when it
owns no image files), provided no image subdirectory whose name matches a
listed document's id is empty; documents left in the unconsumed suffix
are not guaranteed an entry — in particular a document that sorts after
the last image entry receives none, as the counterexample shows, and
`get_images_for_source` then falls back to an empty list. -/
theorem imageAssoc_consumed_have_entry (imageDir : String)
    (parents : List String) (entries : List ImgEntry) (p : String)
    (hdirs : ∀ nm cs, ImgEntry.dir nm cs ∈ entries →
       (∃ q ∈ parents, (splitext q).1 = nm) → cs ≠ [])
    (hp : p ∈ parents)
    (hrem : p ∉ (imageWalk imageDir parents entries
        { images := [], unmappable := [] }).2) :
    p ∈ imagesKeys (recognizeImageFiles imageDir parents entries).images :=
  imageWalk_consumed_mem imageDir parents entries
    { images := [], unmappable := [] } hdirs p hp hrem

/-- Witness for C8 (amended): `a.re` is consumed by the walk over
documents `a.re`, `b.re` and image file `b-x.png` (the walk stops with
`b.re` unconsumed) and indeed has an (empty) entry.  The final conjunct
records that the unconsumed `b.re` nevertheless has an entry here — the
amendment guarantees entries only for consumed documents, it does not
deny them to the suffix. -/
theorem imageAssoc_consumed_have_entry_witness :
    (∀ nm cs, ImgEntry.dir nm cs ∈ [ImgEntry.file "b-x.png"] →
       (∃ q ∈ ["a.re", "b.re"], (splitext q).1 = nm) → cs ≠ []) ∧
    ("a.re" ∈ ["a.re", "b.re"]) ∧
    ("a.re" ∉ (imageWalk "images" ["a.re", "b.re"]
        [ImgEntry.file "b-x.png"]
        { images := [], unmappable := [] }).2) ∧
    ("a.re" ∈ imagesKeys (recognizeImageFiles "images" ["a.re", "b.re"]
        [ImgEntry.file "b-x.png"]).images) ∧
    ((imageWalk "images" ["a.re", "b.re"] [ImgEntry.file "b-x.png"]
        { images := [], unmappable := [] }).2 = ["b.re"]) ∧
    ("b.re" ∈ imagesKeys (recognizeImageFiles "images" ["a.re", "b.re"]
        [ImgEntry.file "b-x.png"]).images) := by
  have h1 : ∀ nm cs, ImgEntry.dir nm cs ∈ [ImgEntry.file "b-x.png"] →
      (∃ q ∈ ["a.re", "b.re"], (splitext q).1 = nm) → cs ≠ [] := by
    intro nm cs hmem _
    simp at hmem
  have h2 : "a.re" ∈ ["a.re", "b.re"] := by decide
  have h3 : "a.re" ∉ (imageWalk "images" ["a.re", "b.re"]
      [ImgEntry.file "b-x.png"] { images := [], unmappable := [] }).2 := by
    simp [imageWalk, splitext, pyStrLt, chListLt, strIsPrefixOf,
          imagesAppend, imagesSetdefault, List.isPrefixOf, ImgEntry.name]
  have h5 : (imageWalk "images" ["a.re", "b.re"] [ImgEntry.file "b-x.png"]
      { images := [], unmappable := [] }).2 = ["b.re"] := by
    simp [imageWalk, splitext, pyStrLt, chListLt, strIsPrefixOf,
          imagesAppend, imagesSetdefault, List.isPrefixOf, ImgEntry.name]
  have h6 : "b.re" ∈ imagesKeys (recognizeImageFiles "images"
      ["a.re", "b.re"] [ImgEntry.file "b-x.png"]).images := by
    simp [recognizeImageFiles, imageWalk, splitext, pyStrLt, chListLt,
          strIsPrefixOf, imagesAppend, imagesSetdefault, List.isPrefixOf,
          ImgEntry.name, imagesKeys]
  exact ⟨h1, h2, h3,
    imageAssoc_consumed_have_entry "images" ["a.re", "b.re"]
      [ImgEntry.file "b-x.png"] "a.re" h1 h2 h3, h5, h6⟩

end Pyrev
